import Mathlib

/-!
Verification development for the twinkle_eval repository (whats2000/Eval).

This file shallowly embeds the core of the concurrent dispatch engine
(`src/twinkle_eval/evaluators.py`) and the distributed result aggregation
engine (`src/twinkle_eval/finalize.py`) in Lean 4 and proves, or refutes,
the frozen claims about them.

Modelling conventions:
* Python dicts are association lists `List (String × β)`; dict assignment is
  the in-place-overwrite-or-append operation `dictSet`, dict lookup is
  `pyGet`; the key-uniqueness invariant of Python dicts is carried as a
  `Nodup` hypothesis where it matters.
* File I/O is modelled as direct data flow: the merge pipeline is a pure
  function of the parsed shard summaries and of a path-indexed store of JSONL
  contents (its `fs` argument); writing a file and reading it back in a later
  stage is composition.
* Machine floats are modelled as exact rationals (`ℚ`), except the square root
  inside `np.std`, which lands in `ℝ`.
* Raising an exception is modelled as returning `Except.error`.
* `random.shuffle(options)` is modelled by passing the shuffled list as an
  extra argument, constrained to be a permutation of `options` in theorems.
-/

namespace TwinkleEval

/-! ## Python string primitives used by `evaluators.py` -/

/-- The whitespace characters recognised by Python's `str.strip()` (ASCII part). -/
def pyIsSpace (c : Char) : Bool :=
  c == ' ' || c == '\t' || c == '\n' || c == '\r' || c == '\x0b' || c == '\x0c'

/-- Python `str.strip()`: drop leading and trailing whitespace. -/
def pyStrip (s : String) : String :=
  ⟨((s.data.dropWhile pyIsSpace).reverse.dropWhile pyIsSpace).reverse⟩

/-- Python `str.upper()` restricted to ASCII, which is all the code feeds it. -/
def pyUpper (s : String) : String :=
  ⟨s.data.map Char.toUpper⟩

/-- The normalisation `s.strip().upper()` applied by `evaluate_file` both to
`q["answer"]` (line 118 of evaluators.py) and to `predicted_answer`
(line 166). -/
def normalizeAnswer (s : String) : String :=
  pyUpper (pyStrip s)

/-! ## Scoring (`evaluators.py` lines 161-185) -/

/-- The `is_correct` computation of `Evaluator.evaluate_file` (lines 163-167):
`False if predicted_answer is None else predicted_answer.strip().upper() == correct_answer`,
where `correct_answer` has already been normalised at dispatch time. -/
def is_correct (predicted_answer : Option String) (correct_answer : String) : Bool :=
  match predicted_answer with
  | none => false
  | some p => normalizeAnswer p == correct_answer

/-! ## RateLimiter (`evaluators.py` lines 30-43) -/

structure RateLimiter where
  no_limit : Bool
  interval : ℚ
  last_call_time : ℚ
deriving Repr, DecidableEq

/-- `RateLimiter.__init__`: `no_limit = calls_per_second == -1`;
`interval = 1.0 / calls_per_second if not no_limit else 0` — the division is
unguarded, so `calls_per_second == 0` raises `ZeroDivisionError`. -/
def RateLimiter.init (calls_per_second : ℚ) : Except String RateLimiter :=
  let no_limit := calls_per_second == -1
  if no_limit then
    Except.ok { no_limit := true, interval := 0, last_call_time := 0 }
  else if calls_per_second == 0 then
    Except.error "ZeroDivisionError"
  else
    Except.ok { no_limit := false, interval := 1 / calls_per_second, last_call_time := 0 }

/-- `RateLimiter.wait`, modelled on an abstract clock: given the current time it
returns the sleep duration together with the updated limiter state.  On the
`no_limit` path it returns before reading the clock or touching
`last_call_time`. -/
def RateLimiter.wait (rl : RateLimiter) (current_time : ℚ) : ℚ × RateLimiter :=
  if rl.no_limit then
    (0, rl)
  else
    let time_to_wait := rl.interval - (current_time - rl.last_call_time)
    let d := if time_to_wait > 0 then time_to_wait else 0
    (d, { rl with last_call_time := current_time + d })

/-! ## The response-collection loop (`evaluators.py` lines 128-185) -/

/-- One row of `detailed_results` (the AnswerRecord), restricted to the fields
the claims are about. -/
structure AnswerRecord where
  question_id : Nat
  question : String
  correct_answer : String
  llm_output : Option String
  predicted_answer : Option String
  is_correct : Bool
deriving Repr, DecidableEq

/-- The data available when one dispatched task completes: the tuple stored in
`future_to_data` plus the content of the response. -/
structure TaskData where
  question_text : String
  correct_answer : String
  question_id : Nat
  content : Option String
deriving Repr, DecidableEq

/-- Scoring of one completed task (lines 160-185): extract an answer from the
content, compare, and build the detailed-results row. -/
def scoreRecord (extract : Option String → Option String) (t : TaskData) : AnswerRecord :=
  let predicted := extract t.content
  { question_id := t.question_id
    question := t.question_text
    correct_answer := t.correct_answer
    llm_output := t.content
    predicted_answer := predicted
    is_correct := is_correct predicted t.correct_answer }

/-- The `for future in as_completed(...)` loop (lines 128-185): tasks are taken
in completion order; `future.result()` re-raises a failed task's exception,
which propagates out of the loop, discarding every accumulated record; a
successful task is scored and appended. -/
def responseLoop (extract : Option String → Option String) :
    List (Except String TaskData) → Except String (List AnswerRecord)
  | [] => Except.ok []
  | Except.error e :: _ => Except.error e
  | Except.ok t :: rest =>
      (responseLoop extract rest).map (fun l => scoreRecord extract t :: l)

/-! ## Python dicts as association lists -/

deriving instance DecidableEq for Except

/-- Python dict lookup (`d[k]` / `d.get(k)`): the value of the first pair with
the given key. -/
def pyGet {β : Type} : List (String × β) → String → Option β
  | [], _ => none
  | p :: t, k => if p.1 = k then some p.2 else pyGet t k

/-- Python dict assignment `d[k] = v`: overwrite in place if the key is
present, else append at the end (insertion order preserved). -/
def dictSet {β : Type} (d : List (String × β)) (k : String) (v : β) : List (String × β) :=
  if d.any (fun p => decide (p.1 = k)) then
    d.map (fun p => if p.1 = k then (k, v) else p)
  else
    d ++ [(k, v)]

/-! ## Option shuffling (`evaluators.py` lines 53-91) -/

/-- The option-key test of `shuffle_question_options` (lines 57-64): a truthy
key all of whose characters are ASCII uppercase letters, excluding the
literal key `"answer"`. -/
def isOptionKey (k : String) : Bool :=
  k != "" && k.data.all (fun c => decide ('A' ≤ c) && decide (c ≤ 'Z')) && k != "answer"

/-- Python string comparison: lexicographic on code points. -/
def charListLE : List Char → List Char → Bool
  | [], _ => true
  | _ :: _, [] => false
  | c1 :: t1, c2 :: t2 =>
      if c1 < c2 then true else if c2 < c1 then false else charListLE t1 t2

/-- The sort key `(len(k), k)` of line 63, as a relation (Python tuple
comparison: first by length, ties by code-point order). -/
def optKeyLE (a b : String) : Prop :=
  a.length < b.length ∨ (a.length = b.length ∧ charListLE a.data b.data = true)

instance : DecidableRel optKeyLE := fun a b => by
  unfold optKeyLE; infer_instance

/-- The sorted option keys detected at lines 57-64. -/
def optionKeys (q : List (String × String)) : List String :=
  List.insertionSort optKeyLE ((q.map Prod.fst).filter isOptionKey)

/-- The `options` list of line 65: each detected key paired with its text. -/
def optionPairs (q : List (String × String)) : List (String × String) :=
  (optionKeys q).map (fun k => (k, (pyGet q k).getD ""))

/-- The rebuild loop of lines 86-89: walk the shuffled texts zipped with the
sorted keys, assigning each text to its new key, and re-pointing `"answer"`
whenever the text equals the original correct text. -/
def assignLoop (correct_text : String) :
    List ((String × String) × String) → List (String × String) → List (String × String)
  | [], d => d
  | ((_, text), new_key) :: rest, d =>
      let d1 := dictSet d new_key text
      let d2 := if text = correct_text then dictSet d1 "answer" new_key else d1
      assignLoop correct_text rest d2

/-- `Evaluator.shuffle_question_options` (lines 53-91).  `shuffled` stands for
the output of `random.shuffle(options)`.  `q["answer"]` raising `KeyError`
is the `Except.error` branch; the `correct_option_text is None` early return
(lines 73-78, which also logs the anomaly) is the second `Except.ok q`. -/
def shuffle_question_options (shuffled : List (String × String))
    (q : List (String × String)) : Except String (List (String × String)) :=
  let option_keys := optionKeys q
  if option_keys.isEmpty then Except.ok q
  else
    match pyGet q "answer" with
    | none => Except.error "KeyError: answer"
    | some correct_ans =>
      match pyGet q correct_ans with
      | none => Except.ok q
      | some correct_option_text =>
        let base := q.filter (fun p => !(option_keys.contains p.1) && p.1 != "answer")
        Except.ok (assignLoop correct_option_text (shuffled.zip option_keys) base)

/-! ## Aggregation data model (`finalize.py`) -/

/-- One JSONL record as the merge reads it back: only the fields the merge
inspects (`question_id`, `source_file`, `file`, `is_correct`); `payload`
stands for the rest of the serialized AnswerRecord so that distinct records
stay distinct. -/
structure Entry where
  question_id : Option Int
  source_file : Option String
  file : Option String
  is_correct : Bool
  payload : String
deriving Repr, DecidableEq

/-- `int(x.get("question_id", 0))` — the sort key of line 95. -/
def entryKey (e : Entry) : Int :=
  e.question_id.getD 0

/-- The comparison underlying `all_entries.sort(key=...)`. -/
def entLE (a b : Entry) : Prop :=
  entryKey a ≤ entryKey b

instance : DecidableRel entLE := fun a b => by
  unfold entLE; infer_instance

instance : IsTotal Entry entLE :=
  ⟨fun a b => le_total (entryKey a) (entryKey b)⟩

instance : IsTrans Entry entLE :=
  ⟨fun _ _ _ h1 h2 => le_trans h1 h2⟩

/-- One element of a shard summary's `results` list: the per-file record with
its `individual_runs.accuracies` and `individual_runs.results` (JSONL paths,
indexed by run). -/
structure FileRes where
  file : String
  accuracies : List ℚ
  results : List String
deriving Repr, DecidableEq

/-- A discovered shard summary JSON document: its path on disk and its
`dataset_results` mapping (a dict, so an association list). -/
structure ShardSummary where
  path : String
  dataset_results : List (String × List FileRes)
deriving Repr, DecidableEq

/-- First-occurrence deduplication, as performed by the
`if jsonl_path not in run_jsonl_shards[run_idx]` append guard (line 68). -/
def pyDedupAux {α : Type} [DecidableEq α] (seen : List α) : List α → List α
  | [] => []
  | a :: l => if a ∈ seen then pyDedupAux seen l else a :: pyDedupAux (a :: seen) l

def pyDedup {α : Type} [DecidableEq α] (l : List α) : List α :=
  pyDedupAux [] l

/-- Stage 1 (lines 58-69), for a fixed run index: the deduplicated list of
shard JSONL paths declared for that run, in summary-traversal order
(`run_jsonl_shards[run_idx]`). -/
def pathsForRun (summaries : List ShardSummary) (r : Nat) : List String :=
  pyDedup (summaries.flatMap fun s =>
    s.dataset_results.flatMap fun ds =>
      ds.2.filterMap fun fr => fr.results.get? r)

/-- Stage 1 (line 67), for a fixed dataset and file: the set of run indices
declared for that file (`ds_file_runs[ds_name][file_path]`), listed in the
ascending order of the stage-4 `sorted(run_indices)` iteration. -/
def declaredRuns (summaries : List ShardSummary) (ds f : String) : List Nat :=
  List.insertionSort (· ≤ ·)
    (pyDedup (summaries.flatMap fun s =>
      (s.dataset_results.filter fun d => decide (d.1 = ds)).flatMap fun d =>
        (d.2.filter fun fr => decide (fr.file = f)).flatMap fun fr =>
          List.range fr.results.length))

/-- All run indices declared anywhere (`sorted(run_jsonl_shards.items())`,
line 78). -/
def allRuns (summaries : List ShardSummary) : List Nat :=
  List.insertionSort (· ≤ ·)
    (pyDedup (summaries.flatMap fun s =>
      s.dataset_results.flatMap fun ds =>
        ds.2.flatMap fun fr => List.range fr.results.length))

/-- Stage 2 (lines 84-100) for one run: concatenate the records of every
declared shard JSONL that exists in the store `fs`, then sort them by
`question_id`.  This is the content of the merged run log. -/
def mergedEntries (fs : List (String × List Entry)) (paths : List String) : List Entry :=
  List.insertionSort entLE ((paths.filterMap fun p => pyGet fs p).flatMap id)

/-- Line 116: `entry.get("source_file") or entry.get("file")`, with Python
truthiness (an empty string falls through, and a falsy result is skipped by
the `if src_file:` guard). -/
def truthyStr : Option String → Option String
  | none => none
  | some s => if s = "" then none else some s

def srcFileOf (e : Entry) : Option String :=
  match truthyStr e.source_file with
  | some s => some s
  | none => truthyStr e.file

/-- The concatenated (pre-sort) records of one run: what stage 2 collects in
`all_entries` before sorting. -/
def allEntriesForRun (fs : List (String × List Entry)) (summaries : List ShardSummary)
    (r : Nat) : List Entry :=
  ((pathsForRun summaries r).filterMap fun p => pyGet fs p).flatMap id

/-- Stage 3 (lines 104-118) for one run and one file: the list of `is_correct`
booleans of the merged records attributed to that file
(`run_file_correct[run_idx][file_path]`; the dict key is absent exactly when
this list is empty). -/
def runFileCorrect (fs : List (String × List Entry)) (summaries : List ShardSummary)
    (r : Nat) (f : String) : List Bool :=
  (mergedEntries fs (pathsForRun summaries r)).filterMap fun e =>
    if srcFileOf e = some f then some e.is_correct else none

/-- The `accs` list collected by `_acc_from_shards` (lines 212-220): the
pre-computed accuracy for the given run and file read from each shard
summary document that declares it. -/
def accsFromShards (summaries : List ShardSummary) (ds f : String) (r : Nat) : List ℚ :=
  summaries.flatMap fun s =>
    (((pyGet s.dataset_results ds).getD []).filter fun fr => decide (fr.file = f)).filterMap
      fun fr => fr.accuracies.get? r

/-- `_acc_from_shards` (lines 210-221): mean of the collected fallback
accuracies, `0.0` when none exist. -/
def acc_from_shards (summaries : List ShardSummary) (ds f : String) (r : Nat) : ℚ :=
  let accs := accsFromShards summaries ds f r
  if accs.isEmpty then 0 else accs.sum / accs.length

/-- Stage 4, per-run accuracy (lines 134-141): pooled correct/total from the
merged records when any record is attributed to the file, else the fallback. -/
def runAccuracy (fs : List (String × List Entry)) (summaries : List ShardSummary)
    (ds f : String) (r : Nat) : ℚ :=
  let correct_list := runFileCorrect fs summaries r f
  if correct_list.isEmpty then acc_from_shards summaries ds f r
  else (correct_list.count true : ℚ) / (correct_list.length : ℚ)

/-- Stage 4 (lines 129-141): the per-run accuracy list of one file, in
ascending run-index order. -/
def runAccuracies (fs : List (String × List Entry)) (summaries : List ShardSummary)
    (ds f : String) : List ℚ :=
  (declaredRuns summaries ds f).map (runAccuracy fs summaries ds f)

/-! ## Statistics of the assembly stage (`finalize.py` lines 143-163 and
`main.py` lines 224-259) -/

/-- `np.mean` on exact rationals. -/
def npMean (xs : List ℚ) : ℚ :=
  xs.sum / (xs.length : ℚ)

/-- The radicand of `np.std`: the mean of the squared deviations from the
mean (population variance, `ddof=0`). -/
def popVariance (xs : List ℚ) : ℚ :=
  ((xs.map fun x => (x - npMean xs) ^ 2).sum) / (xs.length : ℚ)

/-- `np.std` on exact rationals: the population standard deviation. -/
noncomputable def npStd (xs : List ℚ) : ℝ :=
  Real.sqrt (popVariance xs)

/-- The assembled per-file summary (lines 146-154). -/
structure FileResult where
  file : String
  accuracy_mean : ℚ
  accuracy_std : ℝ
  accuracies : List ℚ
  results : List String

/-- Lines 143-154: `mean_acc = float(np.mean(run_accuracies)) if run_accuracies
else 0.0`; `std_acc = float(np.std(run_accuracies)) if len(run_accuracies) > 1
else 0.0`. -/
noncomputable def mkFileResult (fp : String) (run_accuracies : List ℚ)
    (paths : List String) : FileResult :=
  { file := fp
    accuracy_mean := if run_accuracies.isEmpty then 0 else npMean run_accuracies
    accuracy_std := if 1 < run_accuracies.length then npStd run_accuracies else 0
    accuracies := run_accuracies
    results := paths }

/-- The assembled per-dataset summary (lines 156-163). -/
structure DatasetResult where
  results : List FileResult
  average_accuracy : ℚ
  average_std : ℝ

/-- Lines 156-163: both dataset averages are unweighted means over the
dataset's files. -/
noncomputable def mkDatasetResult (rs : List FileResult) : DatasetResult :=
  { results := rs
    average_accuracy := if rs.isEmpty then 0 else npMean (rs.map FileResult.accuracy_mean)
    average_std :=
      if rs.isEmpty then 0 else (rs.map FileResult.accuracy_std).sum / (rs.length : ℝ) }

/-! ## `finalize_results` as a state transformer (`finalize.py` lines 12-207) -/

/-- The slice of the filesystem `finalize_results` touches: the JSONL store
(shard logs and merged run logs, path → parsed records), the shard summary
JSON documents present, and whether the final merged report has been
produced. -/
structure DiskState where
  jsonls : List (String × List Entry)
  summaryPaths : List String
  reportWritten : Bool
deriving Repr, DecidableEq

/-- The merged run-log path of line 79. -/
def mergedPathName (timestamp : String) (r : Nat) : String :=
  "results/eval_results_" ++ timestamp ++ "_run" ++ toString r ++ ".jsonl"

/-- Stage 2 (lines 78-100): for every declared run index in ascending order,
merge its existing shard logs and write the merged run log; collect the set
of shard JSONL files that existed and were merged (`shard_jsonl_files`). -/
def stage2 (timestamp : String) (summaries : List ShardSummary)
    (js : List (String × List Entry)) : List (String × List Entry) × List String :=
  (allRuns summaries).foldl
    (fun acc r =>
      let paths := pathsForRun summaries r
      let existing := paths.filter fun p => (pyGet acc.1 p).isSome
      (dictSet acc.1 (mergedPathName timestamp r) (mergedEntries acc.1 paths),
       acc.2 ++ existing))
    (js, [])

/-- The two-shard store of the concrete C1 example: shard `p1` holds 1 record
(correct), shard `p2` holds 2 records (both wrong). -/
def c1fs : List (String × List Entry) :=
  [("p1", [⟨some 0, some "f", none, true, "a"⟩]),
   ("p2", [⟨some 1, some "f", none, false, "b"⟩, ⟨some 2, some "f", none, false, "c"⟩])]

def c1sums : List ShardSummary :=
  [⟨"s1", [("d", [⟨"f", [], ["p1"]⟩])]⟩, ⟨"s2", [("d", [⟨"f", [], ["p2"]⟩])]⟩]

/-- `finalize_results` (lines 12-207), modelled on `DiskState`.  External
collaborators appear as booleans: `exportOk` is whether
`ResultsExporterFactory.export_results` succeeds (it is not part of the
specified core), `uploadOk` whether the optional Hugging Face upload
succeeds.  Returns the exit status (`Except.error` when the invocation
raises) and the final disk state.  The cleanup of lines 178-190 sits in a
`finally` block, so it runs on both branches of the merge path. -/
def finalize_results (timestamp : String) (summaries : List ShardSummary)
    (singleExists : Bool) (hf_repo_id : Option String) (uploadOk : Bool)
    (exportOk : Bool) (st : DiskState) : Except String Nat × DiskState :=
  if summaries.isEmpty then
    -- lines 20-45: single-node path
    if !singleExists then (Except.ok 1, st)
    else
      match hf_repo_id with
      | none => (Except.ok 0, st)
      | some _ => if uploadOk then (Except.ok 0, st) else (Except.ok 1, st)
  else
    -- lines 47-190: merge path inside try/finally
    let merged := stage2 timestamp summaries st.jsonls
    let body : Except String Unit :=
      if exportOk then Except.ok () else Except.error "export raised"
    -- finally (lines 178-190): best-effort deletion of summary docs and
    -- of every shard JSONL that was merged
    let summaryPaths2 :=
      st.summaryPaths.filter fun p => !(summaries.map ShardSummary.path).contains p
    let jsonls2 := merged.1.filter fun pe => !merged.2.contains pe.1
    let st2 : DiskState :=
      { jsonls := jsonls2, summaryPaths := summaryPaths2
        reportWritten := st.reportWritten || exportOk }
    match body with
    | Except.ok _ => (Except.ok 0, st2)   -- lines 192-207: upload failure is swallowed
    | Except.error e => (Except.error e, st2)

/-! ## Helper lemmas: association-list lookup -/

theorem pyGet_eq_none_of_not_mem_keys {β : Type} (l : List (String × β)) (k : String)
    (h : k ∉ l.map Prod.fst) : pyGet l k = none := by
  induction l with
  | nil => rfl
  | cons p t ih =>
    simp only [List.map_cons, List.mem_cons, not_or] at h
    rw [pyGet, if_neg (fun hk => h.1 hk.symm)]
    exact ih h.2

theorem pyGet_isSome_of_mem_keys {β : Type} (l : List (String × β)) (k : String)
    (h : k ∈ l.map Prod.fst) : (pyGet l k).isSome := by
  induction l with
  | nil => simp at h
  | cons p t ih =>
    simp only [List.map_cons, List.mem_cons] at h
    rw [pyGet]
    by_cases hk : p.1 = k
    · rw [if_pos hk]; rfl
    · rw [if_neg hk]
      exact ih (h.resolve_left (fun he => hk he.symm))

theorem pyGet_filter_eq {β : Type} (l : List (String × β)) (pred : String × β → Bool)
    (k : String) (h : ∀ p : String × β, p.1 = k → pred p = true) :
    pyGet (l.filter pred) k = pyGet l k := by
  induction l with
  | nil => rfl
  | cons p t ih =>
    by_cases hk : p.1 = k
    · rw [List.filter_cons, h p hk]
      simp only [if_true, pyGet, if_pos hk]
    · rw [List.filter_cons]
      cases hp : pred p with
      | true => simp only [if_true, pyGet, if_neg hk, ih]
      | false => simp only [Bool.false_eq_true, if_false, pyGet, if_neg hk, ih]

theorem pyGet_append {β : Type} (l1 l2 : List (String × β)) (k : String) :
    pyGet (l1 ++ l2) k = if (pyGet l1 k).isSome then pyGet l1 k else pyGet l2 k := by
  induction l1 with
  | nil => simp [pyGet]
  | cons p t ih =>
    by_cases hk : p.1 = k
    · simp only [List.cons_append, pyGet, if_pos hk, Option.isSome_some, if_true]
    · simp only [List.cons_append, pyGet, if_neg hk]
      exact ih

/-! ## Helper lemmas: `dictSet` -/

theorem pyGet_map_overwrite_ne {β : Type} (t : List (String × β)) (k : String) (v : β)
    (k2 : String) (h : k2 ≠ k) :
    pyGet (t.map fun p => if p.1 = k then (k, v) else p) k2 = pyGet t k2 := by
  induction t with
  | nil => rfl
  | cons q t ih =>
    by_cases hq : q.1 = k
    · simp only [List.map_cons, if_pos hq, pyGet]
      rw [if_neg (fun he : k = k2 => h he.symm), if_neg (fun he : q.1 = k2 => h (hq ▸ he).symm)]
      exact ih
    · simp only [List.map_cons, if_neg hq, pyGet]
      by_cases hq2 : q.1 = k2
      · rw [if_pos hq2, if_pos hq2]
      · rw [if_neg hq2, if_neg hq2]
        exact ih

theorem pyGet_map_overwrite_self {β : Type} (t : List (String × β)) (k : String) (v : β)
    (h : t.any (fun p => decide (p.1 = k)) = true) :
    pyGet (t.map fun p => if p.1 = k then (k, v) else p) k = some v := by
  induction t with
  | nil => simp at h
  | cons q t ih =>
    by_cases hq : q.1 = k
    · simp [List.map_cons, if_pos hq, pyGet]
    · simp only [List.any_cons, Bool.or_eq_true, decide_eq_true_eq] at h
      simp only [List.map_cons, if_neg hq, pyGet, if_neg hq]
      exact ih (h.resolve_left hq)

/-- The lookup behaviour of Python dict assignment: the assigned key reads the
new value, every other key is untouched. -/
theorem pyGet_dictSet {β : Type} (d : List (String × β)) (k : String) (v : β) (k2 : String) :
    pyGet (dictSet d k v) k2 = if k2 = k then some v else pyGet d k2 := by
  unfold dictSet
  cases ha : d.any (fun p => decide (p.1 = k)) with
  | true =>
    simp only [if_pos rfl]
    by_cases hk : k2 = k
    · rw [hk, if_pos rfl]
      exact pyGet_map_overwrite_self d k v ha
    · rw [if_neg hk]
      exact pyGet_map_overwrite_ne d k v k2 hk
  | false =>
    simp only [Bool.false_eq_true, if_false]
    rw [pyGet_append]
    have hnk : pyGet d k = none := by
      apply pyGet_eq_none_of_not_mem_keys
      intro hm
      rcases List.mem_map.mp hm with ⟨p, hp, hpe⟩
      have : d.any (fun p => decide (p.1 = k)) = true :=
        List.any_eq_true.mpr ⟨p, hp, by simp [hpe]⟩
      rw [this] at ha
      cases ha
    by_cases hk : k2 = k
    · subst hk
      rw [if_pos rfl, hnk]
      simp [pyGet]
    · rw [if_neg hk]
      cases hl : pyGet d k2 with
      | some w => simp [hl]
      | none =>
        simp only [hl, Option.isSome_none, Bool.false_eq_true, if_false, pyGet]
        rw [if_neg (fun he : (k, v).1 = k2 => hk he.symm)]

/-! ## Helper lemmas: `pyDedup` -/

theorem mem_pyDedupAux {α : Type} [DecidableEq α] (seen l : List α) (a : α) :
    a ∈ pyDedupAux seen l ↔ a ∈ l ∧ a ∉ seen := by
  induction l generalizing seen with
  | nil => simp [pyDedupAux]
  | cons b t ih =>
    rw [pyDedupAux]
    by_cases hb : b ∈ seen
    · rw [if_pos hb, ih]
      constructor
      · rintro ⟨h1, h2⟩
        exact ⟨List.mem_cons_of_mem b h1, h2⟩
      · rintro ⟨h1, h2⟩
        rcases List.mem_cons.mp h1 with rfl | h1
        · exact absurd hb h2
        · exact ⟨h1, h2⟩
    · rw [if_neg hb]
      simp only [List.mem_cons, ih, List.mem_cons, not_or]
      constructor
      · rintro (rfl | ⟨h1, h2, h3⟩)
        · exact ⟨Or.inl rfl, hb⟩
        · exact ⟨Or.inr h1, h3⟩
      · rintro ⟨rfl | h1, h2⟩
        · exact Or.inl rfl
        · by_cases hab : a = b
          · exact Or.inl hab
          · exact Or.inr ⟨h1, hab, h2⟩

theorem nodup_pyDedupAux {α : Type} [DecidableEq α] (seen l : List α) :
    (pyDedupAux seen l).Nodup := by
  induction l generalizing seen with
  | nil => exact List.nodup_nil
  | cons b t ih =>
    rw [pyDedupAux]
    by_cases hb : b ∈ seen
    · rw [if_pos hb]; exact ih seen
    · rw [if_neg hb]
      refine List.nodup_cons.mpr ⟨?_, ih (b :: seen)⟩
      intro hmem
      exact ((mem_pyDedupAux (b :: seen) t b).mp hmem).2 (List.mem_cons_self b seen)

theorem mem_pyDedup {α : Type} [DecidableEq α] (l : List α) (a : α) :
    a ∈ pyDedup l ↔ a ∈ l := by
  rw [pyDedup, mem_pyDedupAux]
  simp

theorem nodup_pyDedup {α : Type} [DecidableEq α] (l : List α) : (pyDedup l).Nodup :=
  nodup_pyDedupAux [] l

theorem pyDedup_perm_of_perm {α : Type} [DecidableEq α] (l1 l2 : List α) (h : l1.Perm l2) :
    (pyDedup l1).Perm (pyDedup l2) := by
  refine (List.perm_ext_iff_of_nodup (nodup_pyDedup l1) (nodup_pyDedup l2)).mpr ?_
  intro a
  rw [mem_pyDedup, mem_pyDedup]
  exact ⟨fun ha => h.mem_iff.mp ha, fun ha => h.mem_iff.mpr ha⟩

/-! ## Helper lemmas: sortedness by `entryKey` -/

/-- Two sorted permutations of an entry list with pairwise-distinct keys are
equal: the merged run log is a function of the record multiset alone. -/
theorem sorted_entLE_unique (l1 l2 : List Entry) (hp : l1.Perm l2)
    (hs1 : List.Sorted entLE l1) (hs2 : List.Sorted entLE l2)
    (hnd : (l1.map entryKey).Nodup) : l1 = l2 := by
  induction l1 generalizing l2 with
  | nil => exact (hp.nil_eq).symm ▸ rfl
  | cons a t1 ih =>
    cases l2 with
    | nil => exact absurd hp.symm.nil_eq (by simp)
    | cons b t2 =>
      rw [List.map_cons] at hnd
      obtain ⟨hka, hkt⟩ := List.nodup_cons.mp hnd
      have hab : a = b := by
        by_contra hne
        have ha2 : a ∈ b :: t2 := hp.mem_iff.mp (List.mem_cons_self a t1)
        have hat2 : a ∈ t2 := (List.mem_cons.mp ha2).resolve_left hne
        have hb1 : b ∈ a :: t1 := hp.mem_iff.mpr (List.mem_cons_self b t2)
        have hbt1 : b ∈ t1 := (List.mem_cons.mp hb1).resolve_left (fun he => hne he.symm)
        have h1 : entLE a b := (List.sorted_cons.mp hs1).1 b hbt1
        have h2 : entLE b a := (List.sorted_cons.mp hs2).1 a hat2
        have hk : entryKey a = entryKey b := le_antisymm h1 h2
        exact hka (hk ▸ List.mem_map_of_mem entryKey hbt1)
      subst hab
      have ht : t1.Perm t2 := hp.cons_inv
      have := ih t2 ht (List.sorted_cons.mp hs1).2 (List.sorted_cons.mp hs2).2 hkt
      rw [this]

/-- A `entLE`-sorted entry list with pairwise-distinct keys is strictly
ascending in `entryKey`. -/
theorem pairwise_lt_of_sorted_nodup (l : List Entry) (hs : List.Sorted entLE l)
    (hnd : (l.map entryKey).Nodup) :
    List.Pairwise (fun a b => entryKey a < entryKey b) l := by
  have hne : List.Pairwise (fun a b => entryKey a ≠ entryKey b) l :=
    (List.pairwise_map).mp hnd
  exact (hs.and hne).imp (fun h => lt_of_le_of_ne h.1 h.2)

/-! ## Claim C10: the RateLimiter sentinel and the unguarded division -/

/-- C10: `RateLimiter` recognizes only `calls_per_second == -1` as the
unlimited sentinel, on which `wait()` returns immediately with no delay and
no timestamp update; for any other rate the constructor computes
`1.0 / calls_per_second` unguarded, so `calls_per_second == 0` raises
`ZeroDivisionError`: construction succeeds exactly when
`calls_per_second == -1` or `calls_per_second != 0`. -/
theorem rateLimiter_sentinel_and_zero_division :
    (∀ cps : ℚ, (∃ rl, RateLimiter.init cps = Except.ok rl) ↔ (cps = -1 ∨ cps ≠ 0))
    ∧ RateLimiter.init 0 = Except.error "ZeroDivisionError"
    ∧ (∀ cps rl, RateLimiter.init cps = Except.ok rl → (rl.no_limit = true ↔ cps = -1))
    ∧ (∀ cps rl, RateLimiter.init cps = Except.ok rl → cps ≠ -1 → rl.interval = 1 / cps)
    ∧ (∀ (rl : RateLimiter) (t : ℚ), rl.no_limit = true → rl.wait t = (0, rl)) := by
  refine ⟨?_, ?_, ?_, ?_, ?_⟩
  · intro cps
    unfold RateLimiter.init
    by_cases h1 : cps = -1
    · simp only [h1]
      norm_num
    · by_cases h2 : cps = 0
      · subst h2
        simp only [show ((0 : ℚ) == -1) = false by norm_num]
        norm_num
        exact fun x h => Except.noConfusion h
      · simp only [show (cps == -1) = false by simp [h1],
          show (cps == 0) = false by simp [h2]]
        simp [h1, h2]
  · unfold RateLimiter.init
    norm_num
  · intro cps rl h
    unfold RateLimiter.init at h
    by_cases h1 : cps = -1
    · simp only [h1, show ((-1 : ℚ) == -1) = true by norm_num] at h
      simp only [if_true] at h
      cases h
      simp [h1]
    · simp only [show (cps == -1) = false by simp [h1]] at h
      by_cases h2 : cps = 0
      · simp [h2] at h
      · simp only [show (cps == 0) = false by simp [h2], Bool.false_eq_true, if_false] at h
        cases h
        simp [h1]
  · intro cps rl h hne
    unfold RateLimiter.init at h
    simp only [show (cps == -1) = false by simp [hne], Bool.false_eq_true, if_false] at h
    by_cases h2 : cps = 0
    · simp [h2] at h
    · simp only [show (cps == 0) = false by simp [h2], Bool.false_eq_true, if_false] at h
      cases h
      rfl
  · intro rl t h
    unfold RateLimiter.wait
    rw [if_pos h]

/-- Witness for C10 at concrete rates: `-1` constructs the unlimited limiter
whose `wait` is a no-op, and a limiter built at rate `5` has interval `1/5`
and is not unlimited. -/
theorem rateLimiter_sentinel_and_zero_division_witness :
    (RateLimiter.mk true 0 0).wait 7 = (0, RateLimiter.mk true 0 0)
    ∧ (RateLimiter.mk false (1/5) 0).interval = 1 / (5 : ℚ)
    ∧ ((RateLimiter.mk false (1/5) 0).no_limit = true ↔ (5 : ℚ) = -1) := by
  refine ⟨?_, ?_, ?_⟩
  · exact rateLimiter_sentinel_and_zero_division.2.2.2.2 (RateLimiter.mk true 0 0) 7 rfl
  · exact rateLimiter_sentinel_and_zero_division.2.2.2.1 5 (RateLimiter.mk false (1/5) 0)
      (by unfold RateLimiter.init; norm_num) (by norm_num)
  · exact rateLimiter_sentinel_and_zero_division.2.2.1 5 (RateLimiter.mk false (1/5) 0)
      (by unfold RateLimiter.init; norm_num)

/-! ## Claim C5: `is_correct` characterisation -/

/-- C5: for every AnswerRecord produced by the dispatcher, `is_correct` is
true iff `predicted_answer` is non-null and, after strip-and-uppercase
normalisation, equals the normalised correct answer (which was itself
normalised at dispatch time). -/
theorem is_correct_iff_normalized_match :
    ∀ (predicted : Option String) (correct_raw : String),
      is_correct predicted (normalizeAnswer correct_raw) = true ↔
        ∃ p, predicted = some p ∧ normalizeAnswer p = normalizeAnswer correct_raw := by
  intro predicted correct_raw
  cases predicted with
  | none => simp [is_correct]
  | some p =>
    simp only [is_correct, beq_iff_eq, Option.some.injEq]
    constructor
    · intro h
      exact ⟨p, rfl, h⟩
    · rintro ⟨p2, rfl, h⟩
      exact h

/-! ## Claim C4: exit status of the merge entry point -/

/-- C4: the merge entry point exits `0` on success — including the degenerate
path where no shard summaries match the timestamp but the single final
result exists (so a second merge after cleanup is clean, not an error) —
and exits `1` when neither shards nor a single final result exist. -/
theorem merge_exit_codes :
    ∀ (ts : String) (summaries : List ShardSummary) (singleExists : Bool)
      (hf : Option String) (uploadOk exportOk : Bool) (st : DiskState),
      (summaries = [] → singleExists = false →
        (finalize_results ts summaries singleExists hf uploadOk exportOk st).1 = Except.ok 1)
      ∧ (summaries = [] → singleExists = true → (hf = none ∨ uploadOk = true) →
        (finalize_results ts summaries singleExists hf uploadOk exportOk st).1 = Except.ok 0)
      ∧ (summaries ≠ [] → exportOk = true →
        (finalize_results ts summaries singleExists hf uploadOk exportOk st).1 = Except.ok 0) := by
  intro ts summaries singleExists hf uploadOk exportOk st
  refine ⟨?_, ?_, ?_⟩
  · rintro rfl rfl
    rfl
  · rintro rfl rfl h
    rcases h with rfl | rfl
    · rfl
    · unfold finalize_results
      cases hf with
      | none => rfl
      | some s => simp
  · intro hne hexp
    unfold finalize_results
    rw [if_neg (by simpa [List.isEmpty_iff] using hne)]
    subst hexp
    simp

/-- Witness for C4: a fresh timestamp with neither shards nor final result
exits `1`; the degenerate single-result re-merge exits `0`; a real merge whose
export succeeds exits `0`. -/
theorem merge_exit_codes_witness :
    (finalize_results "T" [] false none true true ⟨[], [], false⟩).1 = Except.ok 1
    ∧ (finalize_results "T" [] true none true true ⟨[], [], false⟩).1 = Except.ok 0
    ∧ (finalize_results "T" [⟨"s", [("d", [⟨"f", [1], ["p0"]⟩])]⟩] false none true true
        ⟨[], [], false⟩).1 = Except.ok 0 := by
  refine ⟨?_, ?_, ?_⟩
  · exact (merge_exit_codes "T" [] false none true true ⟨[], [], false⟩).1 rfl rfl
  · exact (merge_exit_codes "T" [] true none true true ⟨[], [], false⟩).2.1 rfl rfl (Or.inl rfl)
  · exact (merge_exit_codes "T" [⟨"s", [("d", [⟨"f", [1], ["p0"]⟩])]⟩] false none true true
      ⟨[], [], false⟩).2.2 (by simp) rfl

/-! ## Claim C3: a failed task aborts the batch (claim is false on the code) -/

/-- C3 counterexample: with two dispatched tasks of which the first fails and
the second succeeds, the response loop re-raises the failure
(`future.result()` at line 131 is not guarded), so the sibling's record is
NOT scored and appended — contradicting the claim that one task's failure
only drops that record and never aborts the batch for the file. -/
theorem call_failure_drops_sibling_counterexample :
    responseLoop (fun c => c)
        [Except.error "APIError", Except.ok (TaskData.mk "q" "A" 0 (some "A"))]
      = Except.error "APIError"
    ∧ ∀ records,
        responseLoop (fun c => c)
            [Except.error "APIError", Except.ok (TaskData.mk "q" "A" 0 (some "A"))]
          ≠ Except.ok records := by
  refine ⟨rfl, ?_⟩
  intro records h
  rw [show responseLoop (fun c => c)
      [Except.error "APIError", Except.ok (TaskData.mk "q" "A" 0 (some "A"))]
      = Except.error "APIError" from rfl] at h
  exact Except.noConfusion h

/-- C3 amended: a single dispatched LLM call failure propagates out of the
response-collection loop — the file evaluation raises and no AnswerRecords
(the siblings' included) are produced for that invocation. -/
theorem call_failure_aborts_batch :
    ∀ (extract : Option String → Option String) (outcomes : List (Except String TaskData))
      (e : String),
      Except.error e ∈ outcomes →
      ∃ msg, responseLoop extract outcomes = Except.error msg := by
  intro extract outcomes e hmem
  induction outcomes with
  | nil => simp at hmem
  | cons o rest ih =>
    cases o with
    | error e2 => exact ⟨e2, rfl⟩
    | ok t =>
      have : Except.error e ∈ rest := by
        rcases List.mem_cons.mp hmem with h | h
        · exact absurd h (by simp)
        · exact h
      rcases ih this with ⟨msg, hmsg⟩
      refine ⟨msg, ?_⟩
      rw [responseLoop, hmsg]
      rfl

/-- Witness for the amended C3 at a concrete failing batch. -/
theorem call_failure_aborts_batch_witness :
    ∃ msg, responseLoop (fun c => c)
        [Except.ok (TaskData.mk "q" "A" 0 (some "A")), Except.error "timeout"]
      = Except.error msg :=
  call_failure_aborts_batch (fun c => c)
    [Except.ok (TaskData.mk "q" "A" 0 (some "A")), Except.error "timeout"]
    "timeout" (by simp)

/-! ## Claim C9: a declared run with no data contributes accuracy 0.0 -/

/-- C9: when a run index is declared for a file in some shard summary but no
merged record is attributed to that file for that run and no pre-computed
fallback accuracy exists, the merge records that run as accuracy `0.0` in
the file's per-run accuracy list — the run is counted, not excluded from
the mean. -/
theorem declared_run_without_data_counts_as_zero :
    ∀ (fs : List (String × List Entry)) (summaries : List ShardSummary)
      (ds f : String) (r : Nat),
      r ∈ declaredRuns summaries ds f →
      runFileCorrect fs summaries r f = [] →
      accsFromShards summaries ds f r = [] →
      runAccuracy fs summaries ds f r = 0
      ∧ (runAccuracies fs summaries ds f).length = (declaredRuns summaries ds f).length
      ∧ (0 : ℚ) ∈ runAccuracies fs summaries ds f := by
  intro fs summaries ds f r hmem hcl hacc
  have hzero : runAccuracy fs summaries ds f r = 0 := by
    unfold runAccuracy
    rw [hcl]
    simp only [List.isEmpty_nil, if_true]
    unfold acc_from_shards
    rw [hacc]
    rfl
  refine ⟨hzero, ?_, ?_⟩
  · exact List.length_map _ _
  · exact List.mem_map.mpr ⟨r, hmem, hzero⟩

/-- Witness for C9: one shard summary declares run 0 of file `"f"` through a
JSONL path that is absent from the store, with an empty fallback accuracy
list — the run still contributes a 0.0 entry. -/
theorem declared_run_without_data_counts_as_zero_witness :
    runAccuracy [] [⟨"s", [("d", [⟨"f", [], ["p0"]⟩])]⟩] "d" "f" 0 = 0
    ∧ (runAccuracies [] [⟨"s", [("d", [⟨"f", [], ["p0"]⟩])]⟩] "d" "f").length
        = (declaredRuns [⟨"s", [("d", [⟨"f", [], ["p0"]⟩])]⟩] "d" "f").length
    ∧ (0 : ℚ) ∈ runAccuracies [] [⟨"s", [("d", [⟨"f", [], ["p0"]⟩])]⟩] "d" "f" :=
  declared_run_without_data_counts_as_zero [] [⟨"s", [("d", [⟨"f", [], ["p0"]⟩])]⟩] "d" "f" 0
    (by decide) (by decide) (by decide)

/-! ## Claim C2: when shard files are deleted (claim is false on the code) -/

/-- Unfolding of the merge branch of `finalize_results`: stages run, then the
`finally` cleanup fires on both the success and the failure path. -/
theorem finalize_results_merge_branch (ts : String) (summaries : List ShardSummary)
    (singleExists : Bool) (hf : Option String) (uploadOk exportOk : Bool) (st : DiskState)
    (h : summaries ≠ []) :
    finalize_results ts summaries singleExists hf uploadOk exportOk st =
      ((if exportOk then Except.ok 0 else Except.error "export raised"),
       { jsonls := (stage2 ts summaries st.jsonls).1.filter
            (fun pe => !((stage2 ts summaries st.jsonls).2.contains pe.1))
         summaryPaths := st.summaryPaths.filter
            (fun p => !((summaries.map ShardSummary.path).contains p))
         reportWritten := st.reportWritten || exportOk }) := by
  unfold finalize_results
  rw [if_neg (by simpa [List.isEmpty_iff] using h)]
  cases exportOk <;> rfl

theorem pyGet_filter_banned_eq_none {β : Type} (l : List (String × β)) (banned : List String)
    (p : String) (hp : p ∈ banned) :
    pyGet (l.filter fun pe => !(banned.contains pe.1)) p = none := by
  apply pyGet_eq_none_of_not_mem_keys
  intro hm
  rcases List.mem_map.mp hm with ⟨pe, hpe, he⟩
  have hpred := (List.mem_filter.mp hpe).2
  rw [he] at hpred
  simp only [Bool.not_eq_eq_eq_not, Bool.not_true] at hpred
  simp at hpred
  exact hpred hp

theorem not_mem_filter_banned (l banned : List String) (p : String) (hp : p ∈ banned) :
    p ∉ l.filter (fun q => !(banned.contains q)) := by
  intro hm
  have hpred := (List.mem_filter.mp hm).2
  simp only [Bool.not_eq_eq_eq_not, Bool.not_true] at hpred
  simp at hpred
  exact hpred hp

/-- C2 counterexample: a merge invocation whose export raises still deletes
the discovered shard summary document and the merged-in shard log in its
`finally` block (lines 178-190) — the claim that a failing invocation
leaves those shard files in place is false on the code. -/
theorem cleanup_despite_export_failure_counterexample :
    (finalize_results "T" [⟨"s.json", [("d", [⟨"f", [1], ["p0"]⟩])]⟩] true none true false
        ⟨[("p0", [⟨some 0, some "f", none, true, "r"⟩])], ["s.json"], false⟩).1
      = Except.error "export raised"
    ∧ (finalize_results "T" [⟨"s.json", [("d", [⟨"f", [1], ["p0"]⟩])]⟩] true none true false
        ⟨[("p0", [⟨some 0, some "f", none, true, "r"⟩])], ["s.json"], false⟩).2.summaryPaths
      = []
    ∧ pyGet (finalize_results "T" [⟨"s.json", [("d", [⟨"f", [1], ["p0"]⟩])]⟩] true none true false
        ⟨[("p0", [⟨some 0, some "f", none, true, "r"⟩])], ["s.json"], false⟩).2.jsonls "p0"
      = none
    ∧ (finalize_results "T" [⟨"s.json", [("d", [⟨"f", [1], ["p0"]⟩])]⟩] true none true false
        ⟨[("p0", [⟨some 0, some "f", none, true, "r"⟩])], ["s.json"], false⟩).2.reportWritten
      = false := by
  refine ⟨rfl, rfl, ?_, rfl⟩
  decide

/-- C2 amended: cleanup is unconditional.  On every merge invocation that
found shards, the discovered shard summary documents and every shard log
merged during stage 2 are deleted by the guaranteed-cleanup block whether or
not the export succeeded; when the export succeeds the report is produced
(and the invocation exits 0), when it raises the error propagates — but the
shard files are gone either way. -/
theorem cleanup_always_runs :
    ∀ (ts : String) (summaries : List ShardSummary) (singleExists : Bool)
      (hf : Option String) (uploadOk exportOk : Bool) (st : DiskState),
      summaries ≠ [] →
      (∀ p ∈ summaries.map ShardSummary.path,
          p ∉ (finalize_results ts summaries singleExists hf uploadOk exportOk st).2.summaryPaths)
      ∧ (∀ p ∈ (stage2 ts summaries st.jsonls).2,
          pyGet (finalize_results ts summaries singleExists hf uploadOk exportOk st).2.jsonls p
            = none)
      ∧ (exportOk = true →
          (finalize_results ts summaries singleExists hf uploadOk exportOk st).1 = Except.ok 0
          ∧ (finalize_results ts summaries singleExists hf uploadOk exportOk st).2.reportWritten
            = true)
      ∧ (exportOk = false →
          (finalize_results ts summaries singleExists hf uploadOk exportOk st).1
            = Except.error "export raised") := by
  intro ts summaries singleExists hf uploadOk exportOk st h
  rw [finalize_results_merge_branch ts summaries singleExists hf uploadOk exportOk st h]
  refine ⟨?_, ?_, ?_, ?_⟩
  · intro p hp
    exact not_mem_filter_banned st.summaryPaths (summaries.map ShardSummary.path) p hp
  · intro p hp
    exact pyGet_filter_banned_eq_none (stage2 ts summaries st.jsonls).1
      (stage2 ts summaries st.jsonls).2 p hp
  · rintro rfl
    exact ⟨rfl, by simp⟩
  · rintro rfl
    rfl

/-- Witness for the amended C2 at a concrete merge whose export succeeds: the
summary document and the merged shard log are deleted, and the exit is 0. -/
theorem cleanup_always_runs_witness :
    ("s.json" ∉ (finalize_results "T" [⟨"s.json", [("d", [⟨"f", [1], ["p0"]⟩])]⟩] true none true
        true ⟨[("p0", [⟨some 0, some "f", none, true, "r"⟩])], ["s.json"], false⟩).2.summaryPaths)
    ∧ (finalize_results "T" [⟨"s.json", [("d", [⟨"f", [1], ["p0"]⟩])]⟩] true none true true
        ⟨[("p0", [⟨some 0, some "f", none, true, "r"⟩])], ["s.json"], false⟩).1 = Except.ok 0 := by
  have h := cleanup_always_runs "T" [⟨"s.json", [("d", [⟨"f", [1], ["p0"]⟩])]⟩] true none true
    true ⟨[("p0", [⟨some 0, some "f", none, true, "r"⟩])], ["s.json"], false⟩ (by simp)
  exact ⟨h.1 "s.json" (by simp), (h.2.2.1 rfl).1⟩

/-! ## Claim C1: merged per-run accuracy pools records, it is not a mean of
shard accuracies -/

theorem filterMap_attributed (l : List Entry) (f : String)
    (h : ∀ e ∈ l, srcFileOf e = some f) :
    (l.filterMap fun e => if srcFileOf e = some f then some e.is_correct else none)
      = l.map Entry.is_correct := by
  induction l with
  | nil => rfl
  | cons e t ih =>
    rw [List.filterMap_cons, if_pos (h e (List.mem_cons_self e t)), List.map_cons,
      ih (fun e2 he2 => h e2 (List.mem_cons_of_mem e he2))]

/-- C1: when shard summaries declare two shards of the same run for the same
file, the merged per-run accuracy is the pooled ratio
`correct / (a + b)` over the concatenated records; on the concrete
1-of-1 + 0-of-2 example it equals 1/3, which differs from the mean 1/2 of
the two partial shard accuracies. -/
theorem merged_accuracy_is_pooled :
    (∀ (fs : List (String × List Entry)) (summaries : List ShardSummary)
       (ds f : String) (r : Nat) (p1 p2 : String) (E1 E2 : List Entry),
      pathsForRun summaries r = [p1, p2] →
      pyGet fs p1 = some E1 →
      pyGet fs p2 = some E2 →
      (∀ e ∈ E1 ++ E2, srcFileOf e = some f) →
      E1 ++ E2 ≠ [] →
      runAccuracy fs summaries ds f r =
        (((E1 ++ E2).countP fun e => e.is_correct : ℕ) : ℚ)
          / (((E1.length + E2.length : ℕ)) : ℚ))
    ∧ runAccuracy c1fs c1sums "d" "f" 0 = 1 / 3
    ∧ runAccuracy c1fs c1sums "d" "f" 0 ≠ ((1 : ℚ) / 1 + (0 : ℚ) / 2) / 2 := by
  have hclc : runFileCorrect c1fs c1sums 0 "f" = [true, false, false] := by decide
  have hconc : runAccuracy c1fs c1sums "d" "f" 0 = 1 / 3 := by
    unfold runAccuracy
    rw [hclc]
    norm_num
  refine ⟨?_, hconc, by rw [hconc]; norm_num⟩
  intro fs summaries ds f r p1 p2 E1 E2 hpaths h1 h2 hsrc hne
  have hbase : (([p1, p2].filterMap fun p => pyGet fs p).flatMap id) = E1 ++ E2 := by
    simp [List.filterMap_cons, h1, h2]
  have hperm : (mergedEntries fs (pathsForRun summaries r)).Perm (E1 ++ E2) := by
    rw [hpaths]
    unfold mergedEntries
    rw [hbase]
    exact List.perm_insertionSort entLE (E1 ++ E2)
  have hclperm : (runFileCorrect fs summaries r f).Perm ((E1 ++ E2).map Entry.is_correct) := by
    unfold runFileCorrect
    rw [← filterMap_attributed (E1 ++ E2) f hsrc]
    exact hperm.filterMap _
  have hcount : (runFileCorrect fs summaries r f).count true
      = (E1 ++ E2).countP (fun e => e.is_correct) := by
    rw [hclperm.count_eq]
    rw [List.count, List.countP_map]
    congr 1
    funext e
    simp [Function.comp]
  have hlen : (runFileCorrect fs summaries r f).length = E1.length + E2.length := by
    rw [hclperm.length_eq, List.length_map, List.length_append]
  have hclne : (runFileCorrect fs summaries r f).isEmpty = false := by
    rw [List.isEmpty_eq_false_iff_exists_mem]
    have : (E1 ++ E2).map Entry.is_correct ≠ [] := by
      intro hc
      exact hne (List.map_eq_nil_iff.mp hc)
    rcases List.exists_mem_of_ne_nil _ this with ⟨b, hb⟩
    exact ⟨b, hclperm.mem_iff.mpr hb⟩
  unfold runAccuracy
  simp only [hclne, Bool.false_eq_true, if_false, hcount, hlen]

/-- Witness for C1 at the concrete two-shard example: pooled accuracy
1/(1+2). -/
theorem merged_accuracy_is_pooled_witness :
    runAccuracy c1fs c1sums "d" "f" 0 =
      ((([⟨some 0, some "f", none, true, "a"⟩] ++
          [⟨some 1, some "f", none, false, "b"⟩, ⟨some 2, some "f", none, false, "c"⟩]
            : List Entry).countP fun e => e.is_correct : ℕ) : ℚ) / (((1 + 2 : ℕ)) : ℚ) :=
  merged_accuracy_is_pooled.1 c1fs c1sums "d" "f" 0 "p1" "p2"
    [⟨some 0, some "f", none, true, "a"⟩]
    [⟨some 1, some "f", none, false, "b"⟩, ⟨some 2, some "f", none, false, "c"⟩]
    (by decide) (by decide) (by decide) (by decide) (by decide)

/-! ## Claim C8: per-file mean/std and per-dataset unweighted rollups -/

theorem popVariance_nonneg (xs : List ℚ) : 0 ≤ popVariance xs := by
  unfold popVariance
  apply div_nonneg
  · apply List.sum_nonneg
    intro x hx
    rcases List.mem_map.mp hx with ⟨y, _, rfl⟩
    exact sq_nonneg _
  · exact Nat.cast_nonneg _

/-- C8: the assembled FileResult's `accuracy_mean` is the arithmetic mean of
the per-run accuracies, its `accuracy_std` is the population standard
deviation (non-negative, and squaring to the population variance) when at
least 2 runs exist and exactly 0 otherwise; each dataset's
`average_accuracy` and `average_std` are unweighted means over its files. -/
theorem file_and_dataset_statistics :
    ∀ (fp : String) (accs : List ℚ) (ps : List String) (rs : List FileResult),
      (accs ≠ [] → (mkFileResult fp accs ps).accuracy_mean = accs.sum / (accs.length : ℚ))
      ∧ (accs.length < 2 → (mkFileResult fp accs ps).accuracy_std = 0)
      ∧ (2 ≤ accs.length →
            (mkFileResult fp accs ps).accuracy_std ^ 2 = ((popVariance accs : ℚ) : ℝ)
            ∧ 0 ≤ (mkFileResult fp accs ps).accuracy_std)
      ∧ (rs ≠ [] →
            (mkDatasetResult rs).average_accuracy = npMean (rs.map FileResult.accuracy_mean)
            ∧ (mkDatasetResult rs).average_std
                = (rs.map FileResult.accuracy_std).sum / (rs.length : ℝ)) := by
  intro fp accs ps rs
  refine ⟨?_, ?_, ?_, ?_⟩
  · intro h
    simp only [mkFileResult]
    rw [if_neg (by simpa [List.isEmpty_iff] using h)]
    rfl
  · intro h
    simp only [mkFileResult]
    rw [if_neg (by omega)]
  · intro h
    simp only [mkFileResult]
    rw [if_pos (by omega)]
    unfold npStd
    constructor
    · exact Real.sq_sqrt (by exact_mod_cast popVariance_nonneg accs)
    · exact Real.sqrt_nonneg _
  · intro h
    simp only [mkDatasetResult]
    rw [if_neg (by simpa [List.isEmpty_iff] using h),
      if_neg (by simpa [List.isEmpty_iff] using h)]
    exact ⟨rfl, rfl⟩

/-- Witness for C8 on the spec's example accuracies `[0.8, 0.6, 1.0]` and on a
single-run file. -/
theorem file_and_dataset_statistics_witness :
    ((mkFileResult "f" [4/5, 3/5, 1] []).accuracy_mean
        = ([4/5, 3/5, 1] : List ℚ).sum / (([4/5, 3/5, 1] : List ℚ).length : ℚ))
    ∧ ((mkFileResult "f" [4/5, 3/5, 1] []).accuracy_std ^ 2
        = ((popVariance [4/5, 3/5, 1] : ℚ) : ℝ))
    ∧ (mkFileResult "g" [1] []).accuracy_std = 0 :=
  ⟨(file_and_dataset_statistics "f" [4/5, 3/5, 1] [] []).1 (by decide),
   ((file_and_dataset_statistics "f" [4/5, 3/5, 1] [] []).2.2.1 (by decide)).1,
   (file_and_dataset_statistics "g" [1] [] []).2.1 (by decide)⟩

/-! ## Claim C7: merged run logs are sorted and shard-order independent -/

/-- C7: in the merged per-run log, the records collected from all declared
shards of one run appear in strictly ascending `question_id` order (given
that the pooled records carry pairwise-distinct parsed question ids), and
the merged content is identical for any discovery order of the shard
summaries. -/
theorem merged_run_sorted_and_deterministic :
    ∀ (fs : List (String × List Entry)) (summaries summaries2 : List ShardSummary) (r : Nat),
      summaries2.Perm summaries →
      ((allEntriesForRun fs summaries r).map entryKey).Nodup →
      List.Pairwise (fun a b => entryKey a < entryKey b)
        (mergedEntries fs (pathsForRun summaries r))
      ∧ mergedEntries fs (pathsForRun summaries2 r) = mergedEntries fs (pathsForRun summaries r) := by
  intro fs summaries summaries2 r hperm hnd
  have hsp : (mergedEntries fs (pathsForRun summaries r)).Perm (allEntriesForRun fs summaries r) :=
    List.perm_insertionSort entLE _
  have hnds : ((mergedEntries fs (pathsForRun summaries r)).map entryKey).Nodup :=
    ((hsp.map entryKey).nodup_iff).mpr hnd
  have hsorted : List.Sorted entLE (mergedEntries fs (pathsForRun summaries r)) :=
    List.sorted_insertionSort entLE _
  refine ⟨pairwise_lt_of_sorted_nodup _ hsorted hnds, ?_⟩
  have hpaths : (pathsForRun summaries2 r).Perm (pathsForRun summaries r) := by
    unfold pathsForRun
    exact pyDedup_perm_of_perm _ _ (List.Perm.flatMap_right _ hperm)
  have hentries : (allEntriesForRun fs summaries2 r).Perm (allEntriesForRun fs summaries r) := by
    unfold allEntriesForRun
    exact List.Perm.flatMap_right id (hpaths.filterMap _)
  have h2sp : (mergedEntries fs (pathsForRun summaries2 r)).Perm
      (mergedEntries fs (pathsForRun summaries r)) :=
    ((List.perm_insertionSort entLE _).trans hentries).trans hsp.symm
  exact sorted_entLE_unique _ _ h2sp (List.sorted_insertionSort entLE _) hsorted
    (((h2sp.map entryKey).nodup_iff).mpr hnds)

/-- Witness for C7: two shard summaries holding question ids 2,3 and 0,1 of
run 0; the merged log is 0,1,2,3 regardless of which summary is discovered
first. -/
theorem merged_run_sorted_and_deterministic_witness :
    List.Pairwise (fun a b => entryKey a < entryKey b)
      (mergedEntries
        [("p1", [⟨some 2, some "f", none, true, "a"⟩, ⟨some 3, some "f", none, true, "b"⟩]),
         ("p2", [⟨some 0, some "f", none, false, "c"⟩, ⟨some 1, some "f", none, true, "d"⟩])]
        (pathsForRun [⟨"s1", [("d", [⟨"f", [], ["p1"]⟩])]⟩,
          ⟨"s2", [("d", [⟨"f", [], ["p2"]⟩])]⟩] 0))
    ∧ mergedEntries
        [("p1", [⟨some 2, some "f", none, true, "a"⟩, ⟨some 3, some "f", none, true, "b"⟩]),
         ("p2", [⟨some 0, some "f", none, false, "c"⟩, ⟨some 1, some "f", none, true, "d"⟩])]
        (pathsForRun [⟨"s2", [("d", [⟨"f", [], ["p2"]⟩])]⟩,
          ⟨"s1", [("d", [⟨"f", [], ["p1"]⟩])]⟩] 0)
      = mergedEntries
        [("p1", [⟨some 2, some "f", none, true, "a"⟩, ⟨some 3, some "f", none, true, "b"⟩]),
         ("p2", [⟨some 0, some "f", none, false, "c"⟩, ⟨some 1, some "f", none, true, "d"⟩])]
        (pathsForRun [⟨"s1", [("d", [⟨"f", [], ["p1"]⟩])]⟩,
          ⟨"s2", [("d", [⟨"f", [], ["p2"]⟩])]⟩] 0) :=
  merged_run_sorted_and_deterministic
    [("p1", [⟨some 2, some "f", none, true, "a"⟩, ⟨some 3, some "f", none, true, "b"⟩]),
     ("p2", [⟨some 0, some "f", none, false, "c"⟩, ⟨some 1, some "f", none, true, "d"⟩])]
    [⟨"s1", [("d", [⟨"f", [], ["p1"]⟩])]⟩, ⟨"s2", [("d", [⟨"f", [], ["p2"]⟩])]⟩]
    [⟨"s2", [("d", [⟨"f", [], ["p2"]⟩])]⟩, ⟨"s1", [("d", [⟨"f", [], ["p1"]⟩])]⟩]
    0
    (List.Perm.swap _ _ _)
    (by decide)

/-! ## Helper lemmas: the shuffle rebuild loop -/

theorem isOptionKey_ne_answer (k : String) (h : isOptionKey k = true) : k ≠ "answer" := by
  intro hk
  subst hk
  simp [isOptionKey] at h

theorem assignLoop_pyGet_untouched (ct : String) (pairs : List ((String × String) × String))
    (d : List (String × String)) (k : String)
    (h1 : ∀ pr ∈ pairs, pr.2 ≠ k) (h2 : k ≠ "answer") :
    pyGet (assignLoop ct pairs d) k = pyGet d k := by
  induction pairs generalizing d with
  | nil => rfl
  | cons pr rest ih =>
    obtain ⟨⟨s, t⟩, nk⟩ := pr
    have hnk : nk ≠ k := h1 ⟨⟨s, t⟩, nk⟩ (List.mem_cons_self _ _)
    simp only [assignLoop]
    rw [ih _ (fun pr2 hpr2 => h1 pr2 (List.mem_cons_of_mem _ hpr2))]
    by_cases hct : t = ct
    · rw [if_pos hct, pyGet_dictSet, if_neg h2, pyGet_dictSet, if_neg (fun he => hnk he.symm)]
    · rw [if_neg hct, pyGet_dictSet, if_neg (fun he => hnk he.symm)]

theorem assignLoop_pyGet_answer_of_no_match (ct : String)
    (pairs : List ((String × String) × String)) (d : List (String × String))
    (hnm : ∀ pr ∈ pairs, pr.1.2 ≠ ct) (hans : ∀ pr ∈ pairs, pr.2 ≠ "answer") :
    pyGet (assignLoop ct pairs d) "answer" = pyGet d "answer" := by
  induction pairs generalizing d with
  | nil => rfl
  | cons pr rest ih =>
    obtain ⟨⟨s, t⟩, nk⟩ := pr
    have hnk : nk ≠ "answer" := hans ⟨⟨s, t⟩, nk⟩ (List.mem_cons_self _ _)
    have ht : t ≠ ct := hnm ⟨⟨s, t⟩, nk⟩ (List.mem_cons_self _ _)
    simp only [assignLoop]
    rw [if_neg ht]
    rw [ih _ (fun pr2 hpr2 => hnm pr2 (List.mem_cons_of_mem _ hpr2))
      (fun pr2 hpr2 => hans pr2 (List.mem_cons_of_mem _ hpr2))]
    rw [pyGet_dictSet, if_neg (fun he => hnk he.symm)]

theorem assignLoop_pyGet_assigned (ct : String) (pairs : List ((String × String) × String))
    (d : List (String × String))
    (hnd : (pairs.map Prod.snd).Nodup) (hans : ∀ pr ∈ pairs, pr.2 ≠ "answer") :
    ∀ pr ∈ pairs, pyGet (assignLoop ct pairs d) pr.2 = some pr.1.2 := by
  induction pairs generalizing d with
  | nil => intro pr hpr; simp at hpr
  | cons hd rest ih =>
    obtain ⟨⟨s, t⟩, nk⟩ := hd
    rw [List.map_cons] at hnd
    obtain ⟨hnk_rest, hnd_rest⟩ := List.nodup_cons.mp hnd
    have hnk_ans : nk ≠ "answer" := hans ⟨⟨s, t⟩, nk⟩ (List.mem_cons_self _ _)
    intro pr hpr
    rcases List.mem_cons.mp hpr with rfl | hpr_rest
    · simp only [assignLoop]
      rw [assignLoop_pyGet_untouched ct rest _ nk
        (fun pr2 hpr2 he =>
          hnk_rest (List.mem_map.mpr ⟨pr2, hpr2, he⟩))
        hnk_ans]
      by_cases hct : t = ct
      · rw [if_pos hct, pyGet_dictSet, if_neg (fun he : nk = "answer" => hnk_ans he),
          pyGet_dictSet, if_pos rfl]
      · rw [if_neg hct, pyGet_dictSet, if_pos rfl]
    · simp only [assignLoop]
      exact ih _ hnd_rest (fun pr2 hpr2 => hans pr2 (List.mem_cons_of_mem _ hpr2)) pr hpr_rest

theorem assignLoop_pyGet_answer_match (ct : String)
    (pairs : List ((String × String) × String)) (d : List (String × String))
    (hans : ∀ pr ∈ pairs, pr.2 ≠ "answer") (hm : ∃ pr ∈ pairs, pr.1.2 = ct) :
    ∃ nk, pyGet (assignLoop ct pairs d) "answer" = some nk
      ∧ ∃ s, ((s, ct), nk) ∈ pairs := by
  induction pairs generalizing d with
  | nil => rcases hm with ⟨pr, hpr, _⟩; simp at hpr
  | cons hd rest ih =>
    obtain ⟨⟨s, t⟩, nk⟩ := hd
    have hnk_ans : nk ≠ "answer" := hans ⟨⟨s, t⟩, nk⟩ (List.mem_cons_self _ _)
    by_cases hrest : ∃ pr ∈ rest, pr.1.2 = ct
    · rcases ih _ (fun pr2 hpr2 => hans pr2 (List.mem_cons_of_mem _ hpr2)) hrest with
        ⟨nk2, hpg, s2, hmem⟩
      exact ⟨nk2, by simp only [assignLoop]; exact hpg, s2, List.mem_cons_of_mem _ hmem⟩
    · have ht : t = ct := by
        rcases hm with ⟨pr, hpr, he⟩
        rcases List.mem_cons.mp hpr with rfl | hpr_rest
        · exact he
        · exact absurd ⟨pr, hpr_rest, he⟩ hrest
      refine ⟨nk, ?_, s, ?_⟩
      · simp only [assignLoop]
        rw [if_pos ht]
        rw [assignLoop_pyGet_answer_of_no_match ct rest _
          (fun pr2 hpr2 => fun he => hrest ⟨pr2, hpr2, he⟩)
          (fun pr2 hpr2 => hans pr2 (List.mem_cons_of_mem _ hpr2))]
        rw [pyGet_dictSet, if_pos rfl]
      · rw [← ht]
        exact List.mem_cons_self _ _

theorem assignLoop_map_pyGet (ct : String) :
    ∀ (shuffled : List (String × String)) (ks : List String) (d : List (String × String)),
      shuffled.length = ks.length → ks.Nodup → (∀ k ∈ ks, k ≠ "answer") →
      ks.map (fun k => pyGet (assignLoop ct (shuffled.zip ks) d) k)
        = shuffled.map (fun p => some p.2) := by
  intro shuffled
  induction shuffled with
  | nil =>
    intro ks d hlen _ _
    rw [List.length_nil] at hlen
    rw [List.eq_nil_of_length_eq_zero hlen.symm]
    rfl
  | cons p ps ih =>
    intro ks d hlen hnd hans
    cases ks with
    | nil => simp at hlen
    | cons k kt =>
      rw [List.length_cons, List.length_cons, Nat.succ_inj] at hlen
      obtain ⟨hk_kt, hnd_kt⟩ := List.nodup_cons.mp hnd
      have hsnd : ((ps.zip kt).map Prod.snd) = kt :=
        List.map_snd_zip ps kt (le_of_eq hlen.symm)
      have hzip_nd : (((p, k) :: ps.zip kt).map Prod.snd).Nodup := by
        rw [List.map_cons, hsnd]
        exact hnd
      have hzip_ans : ∀ pr ∈ (p, k) :: ps.zip kt, pr.2 ≠ "answer" := by
        intro pr hpr
        rcases List.mem_cons.mp hpr with rfl | hpr2
        · exact hans k (List.mem_cons_self _ _)
        · refine hans pr.2 (List.mem_cons_of_mem _ ?_)
          rw [← hsnd]
          exact List.mem_map_of_mem Prod.snd hpr2
      rw [List.zip_cons_cons, List.map_cons, List.map_cons]
      congr 1
      · exact assignLoop_pyGet_assigned ct ((p, k) :: ps.zip kt) d hzip_nd hzip_ans
          (p, k) (List.mem_cons_self _ _)
      · have hpeel : assignLoop ct ((p, k) :: ps.zip kt) d
            = assignLoop ct (ps.zip kt)
                (if p.2 = ct then dictSet (dictSet d k p.2) "answer" k
                 else dictSet d k p.2) := by
          simp only [assignLoop]
        rw [hpeel]
        exact ih kt _ hlen hnd_kt (fun k2 hk2 => hans k2 (List.mem_cons_of_mem _ hk2))

theorem mem_keys_of_pyGet_some {β : Type} (l : List (String × β)) (k : String) (v : β)
    (h : pyGet l k = some v) : k ∈ l.map Prod.fst := by
  by_contra hn
  rw [pyGet_eq_none_of_not_mem_keys l k hn] at h
  exact Option.noConfusion h

theorem optionKeys_nodup (q : List (String × String)) (hq : (q.map Prod.fst).Nodup) :
    (optionKeys q).Nodup :=
  ((List.perm_insertionSort optKeyLE _).nodup_iff).mpr (hq.filter isOptionKey)

theorem mem_optionKeys (q : List (String × String)) (k : String) :
    k ∈ optionKeys q ↔ isOptionKey k = true ∧ k ∈ q.map Prod.fst := by
  unfold optionKeys
  rw [(List.perm_insertionSort optKeyLE _).mem_iff, List.mem_filter]
  exact ⟨fun h => ⟨h.2, h.1⟩, fun h => ⟨h.2, h.1⟩⟩

theorem shuffle_unfold (q shuffled : List (String × String)) (a ct : String)
    (hne : (optionKeys q).isEmpty = false)
    (hans : pyGet q "answer" = some a) (hct : pyGet q a = some ct) :
    shuffle_question_options shuffled q
      = Except.ok (assignLoop ct (shuffled.zip (optionKeys q))
          (q.filter fun p => !((optionKeys q).contains p.1) && p.1 != "answer")) := by
  unfold shuffle_question_options
  simp only [hne, Bool.false_eq_true, if_false, hans, hct]

/-! ## Claim C6: shuffling preserves structure (claim is false as stated) -/

/-- C6 counterexample: when the answer label names a present NON-option field
(here `"question"`), the code does not skip — `question_data.get(correct_ans)`
is not `None` (it returns the question text), so shuffling proceeds and the
rebuilt dict loses its `"answer"` key entirely.  The claim that a question
whose answer label corresponds to no present option is returned unchanged is
false on the code. -/
theorem shuffle_skip_condition_counterexample :
    ("question" ∉ optionKeys [("question", "q"), ("A", "x"), ("answer", "question")])
    ∧ pyGet [("question", "q"), ("A", "x"), ("answer", "question")] "answer" = some "question"
    ∧ optionPairs [("question", "q"), ("A", "x"), ("answer", "question")] = [("A", "x")]
    ∧ shuffle_question_options [("A", "x")]
        [("question", "q"), ("A", "x"), ("answer", "question")]
      = Except.ok [("question", "q"), ("A", "x")]
    ∧ shuffle_question_options [("A", "x")]
        [("question", "q"), ("A", "x"), ("answer", "question")]
      ≠ Except.ok [("question", "q"), ("A", "x"), ("answer", "question")]
    ∧ pyGet [("question", "q"), ("A", "x")] "answer" = none := by
  decide

/-- C6 amended: (i) for every question dict whose answer label is a present
OPTION key, shuffling preserves the set of option keys and the multiset of
option texts, leaves non-option fields untouched, and re-points `"answer"`
to a key that now holds the original correct text; (ii) the skip-unchanged
path is taken exactly when `question_data.get(correct_label)` is `None`
(answer label not a present key), not when the label merely fails to be an
option key. -/
theorem shuffle_question_options_spec :
    (∀ (q shuffled : List (String × String)) (a ct : String),
      (q.map Prod.fst).Nodup →
      shuffled.Perm (optionPairs q) →
      pyGet q "answer" = some a →
      isOptionKey a = true →
      pyGet q a = some ct →
      ∃ res, shuffle_question_options shuffled q = Except.ok res
        ∧ (∀ k, isOptionKey k = true → ((pyGet res k).isSome ↔ k ∈ optionKeys q))
        ∧ ((optionKeys q).map (fun k => pyGet res k)).Perm
            ((optionKeys q).map (fun k => pyGet q k))
        ∧ (∀ k, isOptionKey k = false → k ≠ "answer" → pyGet res k = pyGet q k)
        ∧ (∃ k2, pyGet res "answer" = some k2 ∧ pyGet res k2 = some ct))
    ∧ (∀ (q shuffled : List (String × String)) (a : String),
      pyGet q "answer" = some a →
      pyGet q a = none →
      shuffle_question_options shuffled q = Except.ok q) := by
  constructor
  · intro q shuffled a ct hq hperm hans hopt hct
    have hks_nd : (optionKeys q).Nodup := optionKeys_nodup q hq
    have ha_keys : a ∈ q.map Prod.fst := mem_keys_of_pyGet_some q a ct hct
    have ha_ks : a ∈ optionKeys q := (mem_optionKeys q a).mpr ⟨hopt, ha_keys⟩
    have hks_ne : (optionKeys q).isEmpty = false :=
      List.isEmpty_eq_false_iff_exists_mem.mpr ⟨a, ha_ks⟩
    have hopt_ks : ∀ k ∈ optionKeys q, isOptionKey k = true :=
      fun k hk => ((mem_optionKeys q k).mp hk).1
    have hans_ks : ∀ k ∈ optionKeys q, k ≠ "answer" :=
      fun k hk => isOptionKey_ne_answer k (hopt_ks k hk)
    have hkeys_ks : ∀ k ∈ optionKeys q, k ∈ q.map Prod.fst :=
      fun k hk => ((mem_optionKeys q k).mp hk).2
    have hlen : shuffled.length = (optionKeys q).length := by
      rw [hperm.length_eq]
      unfold optionPairs
      rw [List.length_map]
    have hsnd : ((shuffled.zip (optionKeys q)).map Prod.snd) = optionKeys q :=
      List.map_snd_zip _ _ (le_of_eq hlen.symm)
    have hzip_ans : ∀ pr ∈ shuffled.zip (optionKeys q), pr.2 ≠ "answer" := by
      intro pr hpr
      exact hans_ks pr.2 (by rw [← hsnd]; exact List.mem_map.mpr ⟨pr, hpr, rfl⟩)
    have hzip_nd : ((shuffled.zip (optionKeys q)).map Prod.snd).Nodup := by
      rw [hsnd]; exact hks_nd
    refine ⟨assignLoop ct (shuffled.zip (optionKeys q))
      (q.filter fun p => !((optionKeys q).contains p.1) && p.1 != "answer"),
      shuffle_unfold q shuffled a ct hks_ne hans hct, ?_, ?_, ?_, ?_⟩
    · -- option-key set preserved
      intro k hk
      by_cases hmem : k ∈ optionKeys q
      · rcases List.mem_map.mp (hsnd.symm ▸ hmem) with ⟨pr, hpr, hpr2⟩
        have := assignLoop_pyGet_assigned ct (shuffled.zip (optionKeys q))
          (q.filter fun p => !((optionKeys q).contains p.1) && p.1 != "answer")
          hzip_nd hzip_ans pr hpr
        rw [hpr2] at this
        rw [this]
        simp [hmem]
      · have huntouched := assignLoop_pyGet_untouched ct (shuffled.zip (optionKeys q))
          (q.filter fun p => !((optionKeys q).contains p.1) && p.1 != "answer") k
          (fun pr hpr he => hmem (by rw [← he, ← hsnd]; exact List.mem_map.mpr ⟨pr, hpr, rfl⟩))
          (isOptionKey_ne_answer k hk)
        have hkq : k ∉ q.map Prod.fst := fun hin => hmem ((mem_optionKeys q k).mpr ⟨hk, hin⟩)
        have hbase : pyGet (q.filter fun p => !((optionKeys q).contains p.1) && p.1 != "answer")
            k = none := by
          apply pyGet_eq_none_of_not_mem_keys
          intro hbk
          rcases List.mem_map.mp hbk with ⟨p, hp, he⟩
          exact hkq (List.mem_map.mpr ⟨p, List.mem_of_mem_filter hp, he⟩)
        rw [huntouched, hbase]
        simp [hmem]
    · -- multiset of option texts preserved
      rw [assignLoop_map_pyGet ct shuffled (optionKeys q) _ hlen hks_nd hans_ks]
      have h2 : (optionPairs q).map (fun p => some p.2)
          = (optionKeys q).map (fun k => pyGet q k) := by
        unfold optionPairs
        rw [List.map_map]
        apply List.map_congr_left
        intro k hk
        have hsome := pyGet_isSome_of_mem_keys q k (hkeys_ks k hk)
        cases ho : pyGet q k with
        | none => rw [ho] at hsome; exact absurd hsome (by simp)
        | some v => simp [Function.comp, ho]
      rw [← h2]
      exact hperm.map _
    · -- non-option fields untouched
      intro k hk hka
      have hknotin : k ∉ optionKeys q := by
        intro hin
        rw [hopt_ks k hin] at hk
        exact Bool.noConfusion hk
      have huntouched := assignLoop_pyGet_untouched ct (shuffled.zip (optionKeys q))
        (q.filter fun p => !((optionKeys q).contains p.1) && p.1 != "answer") k
        (fun pr hpr he => hknotin (by rw [← he, ← hsnd]; exact List.mem_map.mpr ⟨pr, hpr, rfl⟩))
        hka
      rw [huntouched]
      apply pyGet_filter_eq
      intro p hp
      rw [hp]
      simp only [Bool.and_eq_true, Bool.not_eq_eq_eq_not, Bool.not_true, bne_iff_ne, ne_eq]
      constructor
      · simp only [← Bool.not_eq_true]
        intro hcont
        simp at hcont
        exact hknotin hcont
      · exact hka
    · -- the answer points at a key holding the original correct text
      have hct_pairs : ∃ pr ∈ shuffled.zip (optionKeys q), pr.1.2 = ct := by
        have hmem_op : (a, ct) ∈ optionPairs q := by
          unfold optionPairs
          refine List.mem_map.mpr ⟨a, ha_ks, ?_⟩
          rw [hct]
          rfl
        have hmem_sh : (a, ct) ∈ shuffled := hperm.mem_iff.mpr hmem_op
        have hfst : ((shuffled.zip (optionKeys q)).map Prod.fst) = shuffled :=
          List.map_fst_zip _ _ (le_of_eq hlen)
        rcases List.mem_map.mp (hfst.symm ▸ hmem_sh) with ⟨pr, hpr, hpr1⟩
        exact ⟨pr, hpr, by rw [hpr1]⟩
      rcases assignLoop_pyGet_answer_match ct (shuffled.zip (optionKeys q)) _
        hzip_ans hct_pairs with ⟨nk, hpg, s, hmem⟩
      refine ⟨nk, hpg, ?_⟩
      exact assignLoop_pyGet_assigned ct (shuffled.zip (optionKeys q))
        (q.filter fun p => !((optionKeys q).contains p.1) && p.1 != "answer")
        hzip_nd hzip_ans ((s, ct), nk) hmem
  · intro q shuffled a hans hnone
    unfold shuffle_question_options
    cases he : (optionKeys q).isEmpty with
    | true => simp [he]
    | false => simp [he, hans, hnone]

/-- Witness for the amended C6: a two-option question whose options are swapped
by the shuffle, and a skip-path question whose answer label names an absent
key. -/
theorem shuffle_question_options_spec_witness :
    (∃ res, shuffle_question_options [("B", "y"), ("A", "x")]
        [("question", "Q"), ("A", "x"), ("B", "y"), ("answer", "B")] = Except.ok res
      ∧ (∀ k, isOptionKey k = true →
          ((pyGet res k).isSome ↔
            k ∈ optionKeys [("question", "Q"), ("A", "x"), ("B", "y"), ("answer", "B")]))
      ∧ ((optionKeys [("question", "Q"), ("A", "x"), ("B", "y"), ("answer", "B")]).map
            (fun k => pyGet res k)).Perm
          ((optionKeys [("question", "Q"), ("A", "x"), ("B", "y"), ("answer", "B")]).map
            (fun k => pyGet [("question", "Q"), ("A", "x"), ("B", "y"), ("answer", "B")] k))
      ∧ (∀ k, isOptionKey k = false → k ≠ "answer" →
          pyGet res k = pyGet [("question", "Q"), ("A", "x"), ("B", "y"), ("answer", "B")] k)
      ∧ (∃ k2, pyGet res "answer" = some k2 ∧ pyGet res k2 = some "y"))
    ∧ shuffle_question_options [] [("question", "Q"), ("answer", "Z"), ("A", "x")]
        = Except.ok [("question", "Q"), ("answer", "Z"), ("A", "x")] :=
  ⟨shuffle_question_options_spec.1
      [("question", "Q"), ("A", "x"), ("B", "y"), ("answer", "B")]
      [("B", "y"), ("A", "x")] "B" "y"
      (by decide) (by decide) (by decide) (by decide) (by decide),
   shuffle_question_options_spec.2 [("question", "Q"), ("answer", "Z"), ("A", "x")] [] "Z"
      (by decide) (by decide)⟩

end TwinkleEval
